import Mathlib

/-!
Shallow embedding of the market-signal and portfolio-allocation pipeline of
the `planav/ai-auto-investment` repository, together with the frontend pages
that currently implement its drift/insight logic.

Numbers are modelled as exact rationals (`ℚ`); JavaScript `parseFloat`
failures (`NaN`) are modelled as `Option ℚ = none`.
-/

namespace AutoInvest

/-! ## Dashboard page (src/frontend/web/src/pages/Dashboard.jsx) -/

/-- A holding as consumed by `Dashboard.generateAiInsights`:
fields `symbol`, `weight`, `confidence_score`, `predicted_return`. -/
structure DashHolding where
  symbol : String
  weight : ℚ
  confidence_score : ℚ
  predicted_return : ℚ
deriving DecidableEq

/-- A portfolio as consumed by `Dashboard.generateAiInsights`:
`name`, `holdings`, `volatility` (the `p.volatility || 0` default is folded
into the field, absent volatility being `0`). -/
structure DashPortfolio where
  name : String
  holdings : List DashHolding
  volatility : ℚ
deriving DecidableEq

/-- The `type` tag of a Dashboard AI insight:
`'info' | 'action' | 'opportunity' | 'warning'`. -/
inductive InsightType where
  | info
  | action
  | opportunity
  | warning
deriving DecidableEq

/-- A Dashboard AI insight (title, type and confidence; the `description`
string is presentation-only number formatting and is not modelled). -/
structure Insight where
  title : String
  itype : InsightType
  confidence : ℚ
deriving DecidableEq

/-- `totalWeight` of Dashboard.generateAiInsights:
`portfolio.holdings.reduce((sum, h) => sum + h.weight, 0)`. -/
def dashTotalWeight (p : DashPortfolio) : ℚ :=
  p.holdings.foldl (fun sum h => sum + h.weight) 0

/-- `drift` of Dashboard.generateAiInsights: `Math.abs(totalWeight - 1.0)`. -/
def dashDrift (p : DashPortfolio) : ℚ :=
  |dashTotalWeight p - 1|

/-- The insights pushed for one portfolio by Dashboard.generateAiInsights
(lines 164-190): a rebalancing insight when `drift > 0.05`, then one
strong-buy insight per holding with `confidence_score > 0.8` and
`predicted_return > 0.1`; nothing when the portfolio has no holdings. -/
def dashPortfolioInsights (p : DashPortfolio) : List Insight :=
  if 0 < p.holdings.length then
    (if dashDrift p > 5/100 then
      [⟨"Rebalancing Recommended: " ++ p.name, .action,
        min 95 (70 + dashDrift p * 100)⟩]
    else [])
    ++ (p.holdings.filter
          (fun h => h.confidence_score > 8/10 ∧ h.predicted_return > 1/10)).map
        (fun h => ⟨"Strong Buy Signal: " ++ h.symbol, .opportunity,
          h.confidence_score * 100⟩)
  else []

/-- `avgVolatility` of Dashboard.generateAiInsights:
`portfolios.reduce((sum, p) => sum + (p.volatility || 0), 0) / portfolios.length`. -/
def dashAvgVolatility (ps : List DashPortfolio) : ℚ :=
  (ps.foldl (fun sum p => sum + p.volatility) 0) / ps.length

/-- `Dashboard.generateAiInsights` (lines 150-205): on an empty portfolio
list a single welcome insight; otherwise the per-portfolio insights, an
elevated-volatility insight when `avgVolatility > 0.2`, truncated to the
top 3 (`insights.slice(0, 3)`). -/
def dashGenerateAiInsights (ps : List DashPortfolio) : List Insight :=
  if ps.length = 0 then
    [⟨"Welcome to AutoInvest", .info, 100⟩]
  else
    ((ps.flatMap dashPortfolioInsights)
      ++ (if dashAvgVolatility ps > 2/10 then
            [(⟨"Elevated Volatility Detected", .warning, 75⟩ : Insight)]
          else [])).take 3

/-- The Dashboard refresh effect (lines 52-59) re-runs `fetchAllData`, hence
`generateAiInsights`, every 60 seconds: a trace of `k` scheduled evaluations
on unchanged portfolio data emits the concatenation of `k` identical insight
lists. -/
def dashEvalTrace (k : Nat) (ps : List DashPortfolio) : List Insight :=
  (List.replicate k (dashGenerateAiInsights ps)).flatten

/-- Aggregate drift as the specification defines it (spec §4.5, glossary):
the sum over assets of the absolute difference between current weight and
last-accepted target weight.  Stated from the spec's words for comparison
with `dashDrift`, which is what the code computes. -/
def specAggregateDrift (pairs : List (ℚ × ℚ)) : ℚ :=
  (pairs.map (fun pr => |pr.1 - pr.2|)).sum

/-! ## Portfolio page (src/unnamed/part_002) -/

/-- A holding as consumed by the Portfolio page: `symbol`, `current_price`,
`avg_price`, `quantity`, `confidence_score`, `predicted_return`. -/
structure HoldingP where
  symbol : String
  current_price : ℚ
  avg_price : ℚ
  quantity : ℚ
  confidence_score : ℚ
  predicted_return : ℚ
deriving DecidableEq

/-- `dayChange` (Portfolio page, lines 85-89): sum over non-CASH holdings of
`(h.current_price - h.avg_price) * h.quantity`. -/
def dayChange (hs : List HoldingP) : ℚ :=
  hs.foldl
    (fun sum h =>
      if h.symbol = "CASH" then sum
      else sum + (h.current_price - h.avg_price) * h.quantity) 0

/-- `dayChangePct` (Portfolio page, line 90):
`totalValue > 0 ? (dayChange / totalValue) * 100 : 0`. -/
def dayChangePct (totalValue dc : ℚ) : ℚ :=
  if 0 < totalValue then dc / totalValue * 100 else 0

/-- `returnPct` for one holding (Portfolio page, lines 299-301):
`holding.avg_price > 0 ? ((current - avg) / avg) * 100 : 0`. -/
def returnPct (h : HoldingP) : ℚ :=
  if 0 < h.avg_price then (h.current_price - h.avg_price) / h.avg_price * 100
  else 0

/-- An insight of the Portfolio page's `generateAiInsights`:
`type` (`'buy' | 'reduce' | 'hold'`), `symbol`, rounded confidence
(the `reason` string is presentation-only and not modelled). -/
structure PInsight where
  itype : String
  symbol : String
  confidence : ℤ
deriving DecidableEq

/-- The `type` of a Portfolio-page insight:
`predicted_return > 0.05 ? 'buy' : predicted_return < -0.05 ? 'reduce' : 'hold'`. -/
def pInsightType (pr : ℚ) : String :=
  if pr > 5/100 then "buy" else if pr < -(5/100) then "reduce" else "hold"

/-- The Portfolio page's `generateAiInsights` (lines 93-109): empty on no
holdings, otherwise holdings filtered to `symbol !== 'CASH' &&
confidence_score > 0.7`, mapped to insights with
`Math.round((confidence_score || 0.5) * 100)`, and `.slice(0, 5)`. -/
def generateAiInsightsP (hs : List HoldingP) : List PInsight :=
  if hs.length = 0 then []
  else
    ((hs.filter (fun h => h.symbol ≠ "CASH" ∧ h.confidence_score > 7/10)).map
      (fun h =>
        ⟨pInsightType h.predicted_return, h.symbol,
          round ((if h.confidence_score = 0 then 1/2 else h.confidence_score)
            * 100)⟩)).take 5

/-! ## Deposit/Withdraw page (src/frontend/web/src/pages/DepositWithdraw.jsx) -/

/-- A transaction history entry (`type`, `amount`). -/
structure Txn where
  ttype : String
  amount : ℚ
deriving DecidableEq

/-- A portfolio row as held by the DepositWithdraw page (`id`, `total_value`). -/
structure PortfolioW where
  id : String
  total_value : ℚ
deriving DecidableEq

/-- The state touched by `handleWithdraw`: the displayed `balance`, the
transaction history, the portfolio rows (whose `total_value` the server
update mutates), the selected portfolio id (`''` when none is selected) and
the server-side preference `initial_investment`. -/
structure WithdrawState where
  balance : ℚ
  transactions : List Txn
  portfolios : List PortfolioW
  selectedPortfolio : String
  prefInitialInvestment : ℚ
deriving DecidableEq

/-- `handleWithdraw` (DepositWithdraw.jsx, lines 111-165).  The parsed
amount is `none` when `parseFloat` yields `NaN`.  Guards, in source order:
`!withdrawAmount || withdrawAmount <= 0`, `withdrawAmount > balance`,
`!selectedPortfolio` — each returns with the state unchanged.  On success it
updates the preference balance, the selected portfolio's `total_value`
(clamped at 0), the displayed balance, and prepends a withdrawal
transaction. -/
def handleWithdraw (s : WithdrawState) (amount : Option ℚ) : WithdrawState :=
  match amount with
  | none => s
  | some amt =>
    if amt ≤ 0 then s
    else if s.balance < amt then s
    else if s.selectedPortfolio = "" then s
    else
      { s with
        prefInitialInvestment := s.balance - amt
        portfolios := s.portfolios.map (fun p =>
          if p.id = s.selectedPortfolio then
            { p with total_value := max 0 (p.total_value - amt) }
          else p)
        balance := s.balance - amt
        transactions := ⟨"withdrawal", amt⟩ :: s.transactions }

/-! ## Analysis page (src/unnamed/part_003) -/

/-- A stock row from `marketApi.getPopularStocks` as consumed by
`Analysis.fetchMarketData` (`symbol`, `price`, `change_percent`). -/
structure Stock where
  symbol : String
  price : ℚ
  change_percent : ℚ
deriving DecidableEq

/-- An asset view produced by `Analysis.fetchMarketData` (lines 56-63);
`name` and `price` are pass-throughs and omitted here. -/
structure AssetView where
  symbol : String
  change : ℚ
  aiSignal : String
  confidence : ℕ
deriving DecidableEq

/-- The `aiSignal` mapping (line 61):
`change_percent > 2 ? 'strong_buy' : > 0 ? 'buy' : > -2 ? 'hold' : 'sell'`. -/
def aiSignalOf (cp : ℚ) : String :=
  if cp > 2 then "strong_buy"
  else if cp > 0 then "buy"
  else if cp > -2 then "hold"
  else "sell"

/-- `Analysis.fetchMarketData`'s asset mapping (lines 56-63):
`popularRes.data.slice(0, 8).map(stock => ...)` with
`confidence: Math.floor(Math.random() * 20) + 75`.  The random source is
made explicit: `rng i` is the value of `Math.floor(Math.random() * 20)`
(a number in `0..19`) drawn for the `i`-th stock. -/
def mapAssets (rng : Nat → Nat) (stocks : List Stock) : List AssetView :=
  (stocks.take 8).enum.map (fun si =>
    ⟨si.2.symbol, si.2.change_percent, aiSignalOf si.2.change_percent,
      rng si.1 % 20 + 75⟩)

/-! ## Rate limiter (src/plans/api-research.md, lines 407-427) -/

/-- One `can_call(now)` invocation of the `RateLimiter` sketch: evict the
timestamps with `self.calls[0] < now - self.window` from the front of the
deque; if fewer than `max_calls` remain, record the call and grant it. -/
def rlStep (maxCalls : Nat) (window : ℚ) (calls : List ℚ) (now : ℚ) :
    Bool × List ℚ :=
  let pruned := calls.dropWhile (fun t => t < now - window)
  if pruned.length < maxCalls then (true, pruned ++ [now]) else (false, pruned)

/-- Run the rate limiter over a sequence of call-attempt times, returning
the times of the granted calls (each attempt invokes `can_call` once). -/
def rlRun (maxCalls : Nat) (window : ℚ) (calls : List ℚ) :
    List ℚ → List ℚ
  | [] => []
  | now :: rest =>
    let s := rlStep maxCalls window calls now
    if s.1 then now :: rlRun maxCalls window s.2 rest
    else rlRun maxCalls window s.2 rest

/-- Membership of a granted-call time in the rolling window `[T - w, T]`. -/
def inWindow (w T g : ℚ) : Bool :=
  decide (T - w ≤ g) && decide (g ≤ T)

/-- `wait_time` of the `RateLimiter` sketch: `0` when budget remains, else
`self.calls[0] + self.window - now`. -/
def waitTime (maxCalls : Nat) (window now : ℚ) (calls : List ℚ) : ℚ :=
  if calls.length < maxCalls then 0
  else
    match calls with
    | [] => 0
    | t :: _ => t + window - now

/-- Outcome of dispatching one Gateway call: served by the provider at a
priority index, or queued for a bounded wait.  There is no dropped case. -/
inductive DispatchOutcome where
  | served (idx : Nat)
  | queued (wait : ℚ)
deriving DecidableEq

/-- Modelled from the spec: the Provider Gateway's routing of one call is
not implemented under src/ (spec §4.1; the api-research.md sketch only
provides the per-provider `RateLimiter`).  Try each provider's rate limiter
in priority order and serve from the first that grants. -/
def dispatchAux (maxCalls : Nat) (window now : ℚ) :
    Nat → List (List ℚ) → Option Nat
  | _, [] => none
  | idx, st :: rest =>
    if (rlStep maxCalls window st now).1 then some idx
    else dispatchAux maxCalls window now (idx + 1) rest

/-- Modelled from the spec: "a call that would exceed the window's call
budget is either queued until budget frees (bounded wait) or immediately
routed to the next provider in priority order, never silently dropped"
(spec §4.1).  When no provider in the priority list grants the call, it is
queued with the first (highest-priority) provider's `wait_time`. -/
def dispatch (maxCalls : Nat) (window now : ℚ) (providers : List (List ℚ)) :
    DispatchOutcome :=
  match dispatchAux maxCalls window now 0 providers with
  | some i => .served i
  | none => .queued (waitTime maxCalls window now (providers.headD []))

/-! ## Cache read-through (src/plans/implementation-plan.md, lines 490-516)

`MarketDataService.get_quote` awaits `cache.get`, then on a miss awaits the
Finnhub fetch and `cache.set`.  Two concurrent callers for the same key are
modelled as a small interleaved transition system whose suspension points
are exactly those awaits. -/

/-- Program counter of one `get_quote` caller: about to read the cache,
about to fetch from the provider, about to write the cache, or done. -/
inductive QuotePc where
  | readC
  | fetchC
  | writeC
  | doneC
deriving DecidableEq

/-- Joint state of two concurrent `get_quote` calls on the same key:
whether a cache entry for the key exists, the number of underlying provider
(Finnhub) calls issued, and each caller's program counter. -/
structure QuoteSys where
  cacheHit : Bool
  gwCalls : Nat
  pcA : QuotePc
  pcB : QuotePc
deriving DecidableEq

/-- Which of the two concurrent callers moves next. -/
inductive Caller where
  | A
  | B
deriving DecidableEq

/-- Advance one caller by one `get_quote` step: `readC` consults the cache
(hit returns immediately, miss proceeds to fetch); `fetchC` issues the
provider call; `writeC` stores the entry. -/
def quoteStep1 (cache : Bool) (gw : Nat) : QuotePc → QuotePc × Bool × Nat
  | .readC => if cache then (.doneC, cache, gw) else (.fetchC, cache, gw)
  | .fetchC => (.writeC, cache, gw + 1)
  | .writeC => (.doneC, true, gw)
  | .doneC => (.doneC, cache, gw)

/-- One interleaving step of the two-caller system. -/
def quoteStep (s : QuoteSys) : Caller → QuoteSys
  | .A =>
    let r := quoteStep1 s.cacheHit s.gwCalls s.pcA
    ⟨r.2.1, r.2.2, r.1, s.pcB⟩
  | .B =>
    let r := quoteStep1 s.cacheHit s.gwCalls s.pcB
    ⟨r.2.1, r.2.2, s.pcA, r.1⟩

/-- Run a schedule of interleaved steps from a starting state. -/
def quoteRun (s : QuoteSys) (sched : List Caller) : QuoteSys :=
  sched.foldl quoteStep s

/-- Initial state: no cache entry for the key, no provider call issued,
both callers about to read the cache. -/
def quoteInit : QuoteSys :=
  ⟨false, 0, .readC, .readC⟩

/-- Upper bound on provider calls a caller can have issued so far, as a
function of its program counter (a caller increments the call count exactly
when moving from `fetchC` to `writeC`). -/
def pcCount : QuotePc → Nat
  | .readC => 0
  | .fetchC => 0
  | .writeC => 1
  | .doneC => 1

/-! ## Signal engine and optimizer

The Allocation Optimizer and Signal Engine exist in the repository only as
interface declarations whose bodies are `pass`
(src/unnamed/part_000, `PortfolioEngineInterface`) and as pipeline callers
(src/plans/implementation-plan.md, `PortfolioOptimizationPipeline.optimize`),
so their bodies are modelled from the spec below. -/

/-- Model lifecycle state (spec §3, `ModelState`):
`{not_trained, training, trained, stale}`. -/
inductive ModelLifecycle where
  | not_trained
  | training
  | trained
  | stale
deriving DecidableEq

/-- Signal engine errors (spec §4.3). -/
inductive SignalError where
  | ModelUnavailable
deriving DecidableEq

/-- A prediction signal (spec §3): symbol, predicted return, confidence. -/
structure PredictionSignal where
  symbol : String
  predicted_return : ℚ
  confidence : ℚ
deriving DecidableEq

/-- `QlibService.predict_returns` (src/plans/implementation-plan.md,
lines 289-293): `if not self.model: raise ValueError("Model not trained")`,
otherwise predict for the given symbols.  The trained model is an optional
prediction function; the raised `ValueError` is the `Except.error`. -/
def predict_returns (model : Option (String → ℚ)) (symbols : List String) :
    Except String (List ℚ) :=
  match model with
  | none => .error "Model not trained"
  | some m => .ok (symbols.map m)

/-- Modelled from the spec: `generateSignals` is not implemented under src/
(spec §4.3): "Looks up ModelState for `modelId`; if not `trained`, returns
`SignalError.ModelUnavailable`"; for a trained model, one PredictionSignal
per symbol from the model's (return, confidence) prediction. -/
def generateSignals (registry : List (String × ModelLifecycle))
    (modelId : String) (predict : String → ℚ × ℚ) (symbols : List String) :
    Except SignalError (List PredictionSignal) :=
  match registry.lookup modelId with
  | some ModelLifecycle.trained =>
    .ok (symbols.map (fun s => ⟨s, (predict s).1, (predict s).2⟩))
  | _ => .error SignalError.ModelUnavailable

/-- Optimizer status (spec §3): `{optimal, relaxed, fallback}`. -/
inductive OptStatus where
  | optimal
  | relaxed
  | fallback
deriving DecidableEq

/-- An Allocation (spec §3): the invested weight vector (by asset position)
and the optimizer status.  Risk metrics are not needed by the claims. -/
structure Allocation where
  weights : List ℚ
  status : OptStatus
deriving DecidableEq

/-- Modelled from the spec: greedy distribution of the invested budget
above the per-asset lower bounds, raising each weight toward its upper
bound until the remaining budget `r` is exhausted (spec §4.4: each asset
weight within its bound, invested weights summing to the budget). -/
def fillWeights : List (ℚ × ℚ) → ℚ → List ℚ
  | [], _ => []
  | (lo, hi) :: rest, r =>
    let add := min (hi - lo) r
    (lo + add) :: fillWeights rest (r - add)

/-- Modelled from the spec: `PortfolioEngine.optimize` is only declared
(`PortfolioEngineInterface.optimize_allocation` with body `pass`) and
called, never implemented under src/.  Per spec §4.4: allocate the invested
budget `1 - cash_reserve_fraction` within the per-asset `(lower, upper)`
bounds when feasible; when infeasible, fall back to an equal-weight
allocation across the assets with status `fallback` (sector caps are
orthogonal to the sum invariant and omitted). -/
def specOptimize (bounds : List (ℚ × ℚ)) (cash_reserve_fraction : ℚ) :
    Allocation :=
  if (bounds.map Prod.fst).sum ≤ 1 - cash_reserve_fraction ∧
      1 - cash_reserve_fraction ≤ (bounds.map Prod.snd).sum then
    ⟨fillWeights bounds
      (1 - cash_reserve_fraction - (bounds.map Prod.fst).sum), .optimal⟩
  else
    ⟨bounds.map (fun _ => (1 - cash_reserve_fraction) / bounds.length),
      .fallback⟩

/-- Modelled from the spec: the Orchestrator's signal-then-optimize step
(spec §4.4 fallback ladder step 2, §7): when `generateSignals` reports
`ModelUnavailable`, fall back to an equal-weight allocation across the
eligible symbols (respecting the cash reserve) with status `fallback`;
otherwise run the constrained optimizer. -/
def analyzePipeline (registry : List (String × ModelLifecycle))
    (modelId : String) (predict : String → ℚ × ℚ) (symbols : List String)
    (bounds : List (ℚ × ℚ)) (cash_reserve_fraction : ℚ) : Allocation :=
  match generateSignals registry modelId predict symbols with
  | .error _ =>
    ⟨symbols.map (fun _ => (1 - cash_reserve_fraction) / symbols.length),
      .fallback⟩
  | .ok _ => specOptimize bounds cash_reserve_fraction

end AutoInvest

namespace AutoInvest

/-! ## Theorems -/

/-- C8: for every withdrawal request whose parsed amount is not a positive
number, or exceeds the current balance, or with no portfolio selected,
`handleWithdraw` performs no preference update and no portfolio update and
leaves the displayed balance and transaction history unchanged: the whole
state is returned untouched. -/
theorem handleWithdraw_error_state_unchanged (s : WithdrawState)
    (amount : Option ℚ)
    (herr : amount = none ∨ (∃ a, amount = some a ∧ a ≤ 0) ∨
      (∃ a, amount = some a ∧ s.balance < a) ∨ s.selectedPortfolio = "") :
    handleWithdraw s amount = s := by
  rcases herr with h | ⟨a, rfl, ha⟩ | ⟨a, rfl, ha⟩ | h
  · subst h; rfl
  · simp [handleWithdraw, if_pos ha]
  · by_cases h0 : a ≤ 0
    · simp [handleWithdraw, if_pos h0]
    · simp [handleWithdraw, if_neg h0, if_pos ha]
  · cases amount with
    | none => rfl
    | some a =>
      by_cases h0 : a ≤ 0
      · simp [handleWithdraw, if_pos h0]
      · by_cases hb : s.balance < a
        · simp [handleWithdraw, if_neg h0, if_pos hb]
        · simp [handleWithdraw, if_neg h0, if_neg hb, if_pos h]

/-- Witness for C8: a withdrawal of a non-positive amount leaves the
concrete state unchanged. -/
theorem handleWithdraw_error_state_unchanged_witness :
    handleWithdraw ⟨100, [], [⟨"p1", 50⟩], "p1", 100⟩ (some (-5))
      = ⟨100, [], [⟨"p1", 50⟩], "p1", 100⟩ :=
  handleWithdraw_error_state_unchanged _ _
    (Or.inr (Or.inl ⟨-5, rfl, by norm_num⟩))

/-- C9: the Portfolio page's percentage computations are division-guarded:
the day-change percentage is 0 whenever total portfolio value is not
positive, and a holding's return percentage is 0 whenever its average price
is not positive, so the divisions are only evaluated on positive
denominators. -/
theorem portfolioPage_pct_guarded (totalValue dc : ℚ) (h : HoldingP)
    (htv : totalValue ≤ 0) (hap : h.avg_price ≤ 0) :
    dayChangePct totalValue dc = 0 ∧ returnPct h = 0 := by
  constructor
  · simp [dayChangePct, not_lt.mpr htv]
  · simp [returnPct, not_lt.mpr hap]

/-- Witness for C9: zero total value and zero average price yield zero
percentages. -/
theorem portfolioPage_pct_guarded_witness :
    dayChangePct 0 5 = 0 ∧ returnPct ⟨"AAPL", 3, 0, 2, 1, 0⟩ = 0 :=
  portfolioPage_pct_guarded 0 5 ⟨"AAPL", 3, 0, 2, 1, 0⟩ (by norm_num)
    (by norm_num)

/-- C10: the generated AI-insight lists are bounded: the Portfolio page's
`generateAiInsights` returns at most 5 insights, each derived from a
non-CASH holding with `confidence_score` above 0.7, and the Dashboard's
`generateAiInsights` sets at most 3 insights. -/
theorem aiInsights_bounded (hs : List HoldingP) (ps : List DashPortfolio) :
    (generateAiInsightsP hs).length ≤ 5 ∧
    (∀ i ∈ generateAiInsightsP hs, ∃ h ∈ hs,
      h.symbol ≠ "CASH" ∧ 7/10 < h.confidence_score ∧ i.symbol = h.symbol) ∧
    (dashGenerateAiInsights ps).length ≤ 3 := by
  refine ⟨?_, ?_, ?_⟩
  · unfold generateAiInsightsP
    split
    · simp
    · exact List.length_take_le _ _
  · intro i hi
    unfold generateAiInsightsP at hi
    split at hi
    · simp at hi
    · have hmem := List.take_subset _ _ hi
      obtain ⟨h, hf, rfl⟩ := List.mem_map.mp hmem
      have hp := List.mem_filter.mp hf
      have hcond := hp.2
      simp only [decide_eq_true_eq] at hcond
      exact ⟨h, hp.1, hcond.1, hcond.2, rfl⟩
  · unfold dashGenerateAiInsights
    split
    · simp
    · exact List.length_take_le _ _

/-- Folding weight accumulation equals the sum of the mapped weights. -/
lemma foldl_add_weight (l : List DashHolding) (a : ℚ) :
    l.foldl (fun s h => s + h.weight) a
      = a + (l.map DashHolding.weight).sum := by
  induction l generalizing a with
  | nil => simp
  | cons h t ih => simp [ih, add_assoc]

/-- A list none of whose insights is of type `action` counts zero
rebalancing recommendations. -/
lemma countP_action_zero (l : List Insight)
    (h : ∀ x ∈ l, x.itype ≠ InsightType.action) :
    l.countP (fun i => i.itype = InsightType.action) = 0 :=
  List.countP_eq_zero.mpr (by simpa using h)

/-- The per-portfolio Dashboard insights contain exactly one
action-typed (rebalancing) insight when the portfolio is nonempty and its
drift exceeds 0.05, and none otherwise. -/
lemma dashPortfolioInsights_action_count (p : DashPortfolio) :
    (dashPortfolioInsights p).countP (fun i => i.itype = InsightType.action)
      = if 0 < p.holdings.length ∧ 5/100 < dashDrift p then 1 else 0 := by
  unfold dashPortfolioInsights
  by_cases hlen : 0 < p.holdings.length
  · rw [if_pos hlen]
    by_cases hd : dashDrift p > 5/100
    · rw [if_pos hd, if_pos ⟨hlen, hd⟩]
      rw [List.countP_append]
      have h1 : ([(⟨"Rebalancing Recommended: " ++ p.name, .action,
          min 95 (70 + dashDrift p * 100)⟩ : Insight)]).countP
            (fun i => i.itype = InsightType.action) = 1 := by
        simp [List.countP_cons]
      have h2 : ((p.holdings.filter
          (fun h => h.confidence_score > 8/10 ∧ h.predicted_return > 1/10)).map
            (fun h => (⟨"Strong Buy Signal: " ++ h.symbol, .opportunity,
              h.confidence_score * 100⟩ : Insight))).countP
            (fun i => i.itype = InsightType.action) = 0 := by
        apply countP_action_zero
        intro x hx
        obtain ⟨h, _, rfl⟩ := List.mem_map.mp hx
        simp
      rw [h1, h2]
    · rw [if_neg hd, if_neg (by tauto)]
      simp only [List.nil_append]
      apply countP_action_zero
      intro x hx
      obtain ⟨h, _, rfl⟩ := List.mem_map.mp hx
      simp
  · rw [if_neg hlen, if_neg (by tauto)]
    simp

/-- One Dashboard evaluation on a single portfolio emits exactly one
action-typed insight when the portfolio is nonempty with drift above 0.05,
and none otherwise (the rebalancing insight is first in the list, so the
`slice(0, 3)` truncation never removes it). -/
lemma dashGenerate_single_action_count (p : DashPortfolio) :
    (dashGenerateAiInsights [p]).countP (fun i => i.itype = InsightType.action)
      = if 0 < p.holdings.length ∧ 5/100 < dashDrift p then 1 else 0 := by
  unfold dashGenerateAiInsights
  rw [if_neg (by simp)]
  have hflat : ([p].flatMap dashPortfolioInsights)
      = dashPortfolioInsights p := by
    simp
  rw [hflat]
  set V := (if dashAvgVolatility [p] > 2/10 then
    [(⟨"Elevated Volatility Detected", .warning, 75⟩ : Insight)] else [])
    with hV
  have hVna : ∀ x ∈ V, x.itype ≠ InsightType.action := by
    intro x hx
    rw [hV] at hx
    split at hx
    · simp at hx
      subst hx
      simp
    · simp at hx
  have hbuys : ∀ x ∈ (p.holdings.filter
      (fun h => h.confidence_score > 8/10 ∧ h.predicted_return > 1/10)).map
        (fun h => (⟨"Strong Buy Signal: " ++ h.symbol, .opportunity,
          h.confidence_score * 100⟩ : Insight)),
      x.itype ≠ InsightType.action := by
    intro x hx
    obtain ⟨h, _, rfl⟩ := List.mem_map.mp hx
    simp
  unfold dashPortfolioInsights
  by_cases hlen : 0 < p.holdings.length
  · rw [if_pos hlen]
    by_cases hd : dashDrift p > 5/100
    · rw [if_pos hd, if_pos ⟨hlen, hd⟩]
      simp only [List.cons_append, List.nil_append]
      rw [show (3 : Nat) = 2 + 1 from rfl, List.take_succ_cons,
        List.countP_cons]
      have h0 : (((p.holdings.filter
          (fun h => h.confidence_score > 8/10 ∧ h.predicted_return > 1/10)).map
            (fun h => (⟨"Strong Buy Signal: " ++ h.symbol, .opportunity,
              h.confidence_score * 100⟩ : Insight)) ++ V).take 2).countP
            (fun i => i.itype = InsightType.action) = 0 := by
        apply countP_action_zero
        intro x hx
        rcases List.mem_append.mp (List.take_subset _ _ hx) with h | h
        · exact hbuys x h
        · exact hVna x h
      rw [h0]
      simp
    · rw [if_neg hd, if_neg (by tauto), List.nil_append]
      apply countP_action_zero
      intro x hx
      rcases List.mem_append.mp (List.take_subset _ _ hx) with h | h
      · exact hbuys x h
      · exact hVna x h
  · rw [if_neg hlen, if_neg (by tauto), List.nil_append]
    apply countP_action_zero
    intro x hx
    exact hVna x (List.take_subset _ _ hx)

/-- A trace of `k` scheduled Dashboard evaluations on unchanged data emits
`k` times the action-insights of one evaluation. -/
lemma dashEvalTrace_count (k : Nat) (ps : List DashPortfolio) :
    (dashEvalTrace k ps).countP (fun i => i.itype = InsightType.action)
      = k * (dashGenerateAiInsights ps).countP
          (fun i => i.itype = InsightType.action) := by
  induction k with
  | zero => simp [dashEvalTrace]
  | succ n ih =>
    unfold dashEvalTrace at ih ⊢
    rw [List.replicate_succ, List.flatten_cons, List.countP_append, ih]
    ring

/-- C2 counterexample: a portfolio whose current weights are 0.6 and 0.4
against last-accepted targets 0.5 and 0.5 has per-asset aggregate drift 0.2
(above the 5% threshold), yet the Dashboard computes drift 0 (the weights
sum to 1) and emits no rebalancing insight: the code's drift is not the sum
of per-asset absolute differences. -/
theorem dashboard_drift_not_per_asset :
    dashDrift ⟨"Growth", [⟨"AAPL", 3/5, 1/2, 0⟩, ⟨"MSFT", 2/5, 1/2, 0⟩], 0⟩
      = 0 ∧
    specAggregateDrift [(3/5, 1/2), (2/5, 1/2)] = 1/5 ∧
    (5/100 : ℚ) < 1/5 ∧
    dashDrift ⟨"Growth", [⟨"AAPL", 3/5, 1/2, 0⟩, ⟨"MSFT", 2/5, 1/2, 0⟩], 0⟩
      ≠ specAggregateDrift [(3/5, 1/2), (2/5, 1/2)] ∧
    (dashGenerateAiInsights
        [⟨"Growth", [⟨"AAPL", 3/5, 1/2, 0⟩, ⟨"MSFT", 2/5, 1/2, 0⟩], 0⟩]).countP
      (fun i => i.itype = InsightType.action) = 0 := by
  have h1 : dashDrift
      ⟨"Growth", [⟨"AAPL", 3/5, 1/2, 0⟩, ⟨"MSFT", 2/5, 1/2, 0⟩], 0⟩ = 0 := by
    norm_num [dashDrift, dashTotalWeight, abs]
  have h2 : specAggregateDrift [(3/5, 1/2), (2/5, 1/2)] = 1/5 := by
    norm_num [specAggregateDrift, abs]
  refine ⟨h1, h2, by norm_num, ?_, ?_⟩
  · rw [h1, h2]
    norm_num
  · rw [dashGenerate_single_action_count, if_neg]
    rw [h1]
    norm_num

/-- C2 amended: the Dashboard computes a portfolio's drift as the absolute
difference between the sum of its current holding weights and 1.0 (it does
not compare against last-accepted per-asset targets), and it emits a
rebalancing insight exactly when the portfolio is nonempty and this
quantity exceeds the 0.05 threshold. -/
theorem dashboard_drift_definition (p : DashPortfolio) :
    dashDrift p = |(p.holdings.map DashHolding.weight).sum - 1| ∧
    (dashPortfolioInsights p).countP (fun i => i.itype = InsightType.action)
      = if 0 < p.holdings.length ∧ 5/100 < dashDrift p then 1 else 0 := by
  constructor
  · unfold dashDrift dashTotalWeight
    rw [foldl_add_weight]
    simp
  · exact dashPortfolioInsights_action_count p

/-- C3 counterexample: a portfolio with aggregate drift 6% (above the 5%
threshold) evaluated twice before any acknowledgment — the Dashboard has no
acknowledgment or episode state — emits a rebalancing recommendation on
both evaluations, so more than one plan is produced for the same drift
episode. -/
theorem dashboard_plan_reemitted :
    (dashEvalTrace 2 [⟨"Growth", [⟨"AAPL", 53/100, 1/2, 0⟩,
        ⟨"MSFT", 53/100, 1/2, 0⟩], 0⟩]).countP
      (fun i => i.itype = InsightType.action) = 2 ∧
    ¬ ((dashEvalTrace 2 [⟨"Growth", [⟨"AAPL", 53/100, 1/2, 0⟩,
        ⟨"MSFT", 53/100, 1/2, 0⟩], 0⟩]).countP
      (fun i => i.itype = InsightType.action) ≤ 1) := by
  have h : (dashEvalTrace 2 [⟨"Growth", [⟨"AAPL", 53/100, 1/2, 0⟩,
      ⟨"MSFT", 53/100, 1/2, 0⟩], 0⟩]).countP
        (fun i => i.itype = InsightType.action) = 2 := by
    rw [dashEvalTrace_count, dashGenerate_single_action_count, if_pos]
    constructor
    · norm_num
    · norm_num [dashDrift, dashTotalWeight, abs]
  exact ⟨h, by rw [h]; norm_num⟩

/-- C3 amended: every scheduled Dashboard evaluation re-emits the
rebalancing recommendation anew — a trace of `k` evaluations on unchanged
data contains `k` action insights — and a single evaluation emits exactly
one rebalancing insight when the portfolio is nonempty with drift above the
threshold (none below it); there is no acknowledgment state suppressing
re-emission. -/
theorem dashboard_plan_per_evaluation :
    (∀ (k : Nat) (ps : List DashPortfolio),
      (dashEvalTrace k ps).countP (fun i => i.itype = InsightType.action)
        = k * (dashGenerateAiInsights ps).countP
            (fun i => i.itype = InsightType.action)) ∧
    (∀ p : DashPortfolio,
      (dashGenerateAiInsights [p]).countP
          (fun i => i.itype = InsightType.action)
        = if 0 < p.holdings.length ∧ 5/100 < dashDrift p then 1 else 0) :=
  ⟨dashEvalTrace_count, dashGenerate_single_action_count⟩

/-- Each interleaving step of the two-caller `get_quote` system preserves
the invariant that the provider-call count is bounded by the number of
callers whose program counter has passed the fetch. -/
lemma quoteRun_gwCalls_invariant :
    ∀ (sched : List Caller) (s : QuoteSys),
      s.gwCalls ≤ pcCount s.pcA + pcCount s.pcB →
      (quoteRun s sched).gwCalls
        ≤ pcCount (quoteRun s sched).pcA + pcCount (quoteRun s sched).pcB
  | [], _, hs => hs
  | c :: rest, s, hs => by
    have hstep : (quoteStep s c).gwCalls
        ≤ pcCount (quoteStep s c).pcA + pcCount (quoteStep s c).pcB := by
      obtain ⟨cache, gw, pa, pb⟩ := s
      cases c <;> cases pa <;> cases pb <;> cases cache <;>
        simp [quoteStep, quoteStep1, pcCount] at hs ⊢ <;> omega
    simpa [quoteRun] using
      quoteRun_gwCalls_invariant rest (quoteStep s c) hstep

/-- C7 counterexample: with the interleaved schedule in which both callers
read the (empty) cache before either fetch completes, both `get_quote`
calls run to completion and the provider receives two underlying calls, not
the single call the claim requires. -/
theorem getQuote_no_single_flight :
    (quoteRun quoteInit [.A, .B, .A, .A, .B, .B]).pcA = QuotePc.doneC ∧
    (quoteRun quoteInit [.A, .B, .A, .A, .B, .B]).pcB = QuotePc.doneC ∧
    (quoteRun quoteInit [.A, .B, .A, .A, .B, .B]).gwCalls = 2 ∧
    (quoteRun quoteInit [.A, .B, .A, .A, .B, .B]).gwCalls ≠ 1 := by
  decide

/-- C7 amended: two concurrent `get_quote` calls on the same missing key
issue at most two provider calls, and the count depends on the
interleaving: one call when the first caller completes (and caches the
quote) before the second reads, two when both read the cache before either
fetch completes; `get_quote` has no single-flight attachment. -/
theorem getQuote_fetch_per_miss :
    (∀ sched : List Caller, (quoteRun quoteInit sched).gwCalls ≤ 2) ∧
    (quoteRun quoteInit [.A, .A, .A, .B, .B]).gwCalls = 1 ∧
    (quoteRun quoteInit [.A, .A, .A, .B, .B]).pcA = QuotePc.doneC ∧
    (quoteRun quoteInit [.A, .A, .A, .B, .B]).pcB = QuotePc.doneC ∧
    (quoteRun quoteInit [.A, .B, .A, .A, .B, .B]).gwCalls = 2 := by
  refine ⟨fun sched => ?_, by decide, by decide, by decide, by decide⟩
  have h := quoteRun_gwCalls_invariant sched quoteInit (by decide)
  have hA : pcCount (quoteRun quoteInit sched).pcA ≤ 1 := by
    cases (quoteRun quoteInit sched).pcA <;> simp [pcCount]
  have hB : pcCount (quoteRun quoteInit sched).pcB ≤ 1 := by
    cases (quoteRun quoteInit sched).pcB <;> simp [pcCount]
  omega

/-- C6 counterexample: the Analysis page's asset mapping keeps the API
order — with input stocks B (change 1%) then A (change 5%) the output
order is [B, A], not sorted by predicted change descending — and two runs
on identical inputs with different random draws produce different
confidence values, so the mapping is not reproducible. -/
theorem analysis_ranking_refuted :
    (mapAssets (fun _ => 0) [⟨"B", 10, 1⟩, ⟨"A", 10, 5⟩]).map
        AssetView.symbol = ["B", "A"] ∧
    ¬ List.Pairwise (fun a b : AssetView => b.change ≤ a.change)
        (mapAssets (fun _ => 0) [⟨"B", 10, 1⟩, ⟨"A", 10, 5⟩]) ∧
    mapAssets (fun _ => 0) [⟨"B", 10, 1⟩]
      ≠ mapAssets (fun _ => 5) [⟨"B", 10, 1⟩] := by
  have e2 : mapAssets (fun _ => 0) [⟨"B", 10, 1⟩, ⟨"A", 10, 5⟩]
      = [⟨"B", 1, "buy", 75⟩, ⟨"A", 5, "strong_buy", 75⟩] := rfl
  have eb : mapAssets (fun _ => 0) [⟨"B", 10, 1⟩] = [⟨"B", 1, "buy", 75⟩] :=
    rfl
  have eb' : mapAssets (fun _ => 5) [⟨"B", 10, 1⟩] = [⟨"B", 1, "buy", 80⟩] :=
    rfl
  refine ⟨by rw [e2]; rfl, ?_, ?_⟩
  · rw [e2]
    simp only [List.pairwise_cons, List.mem_singleton, List.mem_cons]
    intro hcon
    have h5 : (5 : ℚ) ≤ 1 := by
      simpa using hcon.1 ⟨"A", 5, "strong_buy", 75⟩ (by simp)
    norm_num at h5
  · rw [eb, eb']
    simp

/-- C6 amended: the asset mapping is order-preserving on the first 8 API
stocks (no re-ranking by predicted return), bounded to 8 entries, and each
entry's `aiSignal` is the threshold function of its own change percent; the
confidence field depends on the random stream and is outside this
determinism. -/
theorem analysis_mapping_order (rng : Nat → Nat) (stocks : List Stock) :
    (mapAssets rng stocks).map AssetView.symbol
      = (stocks.take 8).map Stock.symbol ∧
    (mapAssets rng stocks).length ≤ 8 ∧
    ∀ a ∈ mapAssets rng stocks, a.aiSignal = aiSignalOf a.change := by
  refine ⟨?_, ?_, ?_⟩
  · unfold mapAssets
    rw [List.map_map]
    rw [show (AssetView.symbol ∘ fun si : Nat × Stock =>
        (⟨si.2.symbol, si.2.change_percent, aiSignalOf si.2.change_percent,
          rng si.1 % 20 + 75⟩ : AssetView))
      = Stock.symbol ∘ Prod.snd from rfl]
    rw [← List.map_map, List.enum_map_snd]
  · unfold mapAssets
    rw [List.length_map, List.enum_length]
    exact (List.length_take_le _ _)
  · intro a ha
    unfold mapAssets at ha
    obtain ⟨si, _, rfl⟩ := List.mem_map.mp ha
    rfl

/-- The sum of upper-minus-lower bound gaps equals the difference of the
bound sums. -/
lemma sum_map_sub_bounds (bounds : List (ℚ × ℚ)) :
    (bounds.map (fun b => b.2 - b.1)).sum
      = (bounds.map Prod.snd).sum - (bounds.map Prod.fst).sum := by
  induction bounds with
  | nil => simp
  | cons b t ih => simp [ih]; ring

/-- Greedy filling distributes exactly `min (total slack) r` above the
lower bounds. -/
lemma fillWeights_sum :
    ∀ (bounds : List (ℚ × ℚ)) (r : ℚ), 0 ≤ r →
      (∀ b ∈ bounds, b.1 ≤ b.2) →
      (fillWeights bounds r).sum
        = (bounds.map Prod.fst).sum
          + min ((bounds.map (fun b => b.2 - b.1)).sum) r
  | [], r, hr, _ => by
    simp [fillWeights, min_eq_left hr]
  | (lo, hi) :: rest, r, hr, hb => by
    have h1 : lo ≤ hi := hb (lo, hi) (by simp)
    have hD : 0 ≤ (rest.map (fun b => b.2 - b.1)).sum := by
      apply List.sum_nonneg
      intro x hx
      obtain ⟨b, hbm, rfl⟩ := List.mem_map.mp hx
      have := hb b (by simp [hbm])
      linarith
    have hadd0 : 0 ≤ min (hi - lo) r := le_min (by linarith) hr
    have haddr : min (hi - lo) r ≤ r := min_le_right _ _
    have ih := fillWeights_sum rest (r - min (hi - lo) r) (by linarith)
      (fun b hbm => hb b (by simp [hbm]))
    simp only [fillWeights, List.sum_cons, ih, List.map_cons]
    rcases le_total (hi - lo) r with h | h
    · rw [min_eq_left h]
      rcases le_total ((rest.map (fun b => b.2 - b.1)).sum) (r - (hi - lo))
        with h2 | h2
      · rw [min_eq_left h2, min_eq_left (by linarith)]
        ring
      · rw [min_eq_right h2, min_eq_right (by linarith)]
        ring
    · have hrle : r ≤ hi - lo + (rest.map (fun b => b.2 - b.1)).sum := by
        linarith
      rw [min_eq_right h, sub_self, min_eq_right hD, min_eq_right hrle]
      ring

/-- C1: for every optimization request with a valid constraint set
(consistent non-negative bounds, a cash reserve fraction in [0,1], at least
one asset), the returned Allocation's invested weights sum to
`1 - cash_reserve_fraction` — exactly, hence within the 1e-6 tolerance —
on both the constrained branch and the equal-weight fallback, so no
unnormalized weight vector is ever emitted. -/
theorem specOptimize_sum_invariant (bounds : List (ℚ × ℚ)) (crf : ℚ)
    (hvalid : ∀ b ∈ bounds, 0 ≤ b.1 ∧ b.1 ≤ b.2) (hne : bounds ≠ [])
    (_hcrf : 0 ≤ crf ∧ crf ≤ 1) :
    (specOptimize bounds crf).weights.sum = 1 - crf ∧
    |(specOptimize bounds crf).weights.sum - (1 - crf)| ≤ 1/1000000 := by
  have hsum : (specOptimize bounds crf).weights.sum = 1 - crf := by
    unfold specOptimize
    split
    · next hfeas =>
      obtain ⟨hlo, hhi⟩ := hfeas
      simp only
      rw [fillWeights_sum bounds (1 - crf - (bounds.map Prod.fst).sum)
        (by linarith) (fun b hbm => (hvalid b hbm).2)]
      rw [sum_map_sub_bounds]
      rw [min_eq_right (by linarith)]
      ring
    · simp only
      rw [List.map_const', List.sum_replicate, nsmul_eq_mul]
      have hn : (bounds.length : ℚ) ≠ 0 := by
        simpa using hne
      field_simp
  exact ⟨hsum, by rw [hsum]; simp⟩

/-- Witness for C1: two assets bounded by [0, 0.5] with a 10% cash reserve
receive invested weights summing to 0.9. -/
theorem specOptimize_sum_invariant_witness :
    (specOptimize [(0, 1/2), (0, 1/2)] (1/10)).weights.sum = 1 - 1/10 :=
  (specOptimize_sum_invariant [(0, 1/2), (0, 1/2)] (1/10)
    (by intro b hb; simp at hb; subst hb; norm_num)
    (by simp) (by norm_num)).1

/-- C4: with a model whose lifecycle state is not `trained`, the signal
engine returns `SignalError.ModelUnavailable` rather than any prediction,
the optimizer pipeline falls back to an equal-weight allocation over the
eligible symbols with status `fallback`, and the plan's
`QlibService.predict_returns` likewise raises `Model not trained` when no
trained model is loaded. -/
theorem modelUnavailable_fallback (registry : List (String × ModelLifecycle))
    (modelId : String) (predict : String → ℚ × ℚ) (symbols : List String)
    (bounds : List (ℚ × ℚ)) (crf : ℚ)
    (hstate : registry.lookup modelId ≠ some ModelLifecycle.trained) :
    generateSignals registry modelId predict symbols
      = .error SignalError.ModelUnavailable ∧
    analyzePipeline registry modelId predict symbols bounds crf
      = ⟨symbols.map (fun _ => (1 - crf) / symbols.length), .fallback⟩ ∧
    (analyzePipeline registry modelId predict symbols bounds crf).status
      = .fallback ∧
    predict_returns none symbols = .error "Model not trained" := by
  have hsig : generateSignals registry modelId predict symbols
      = .error SignalError.ModelUnavailable := by
    unfold generateSignals
    split
    · next heq => exact absurd heq hstate
    · rfl
  refine ⟨hsig, ?_, ?_, rfl⟩
  · unfold analyzePipeline
    rw [hsig]
  · unfold analyzePipeline
    rw [hsig]

/-- `dropWhile` of a strict lower cut on a nondecreasing list equals the
corresponding filter: once an element at least `c` is reached, all later
elements are too. -/
lemma dropWhile_lt_eq_filter (c : ℚ) :
    ∀ (l : List ℚ), l.Pairwise (· ≤ ·) →
      l.dropWhile (fun t => decide (t < c))
        = l.filter (fun t => decide (c ≤ t))
  | [], _ => rfl
  | a :: l, hp => by
    rw [List.pairwise_cons] at hp
    rw [List.dropWhile_cons, List.filter_cons]
    by_cases hac : a < c
    · rw [if_pos (by simpa using hac), if_neg (by simpa using not_le.mpr hac)]
      exact dropWhile_lt_eq_filter c l hp.2
    · rw [if_neg (by simpa using hac), if_pos (by simpa using not_lt.mp hac)]
      congr 1
      rw [eq_comm, List.filter_eq_self]
      intro b hb
      have h1 := hp.1 b hb
      have h2 := not_lt.mp hac
      simpa using le_trans h2 h1

/-- Unfolding of one rate-limiter attempt: evict, then grant and record the
call when the pruned deque is under budget. -/
lemma rlRun_cons (m : Nat) (w : ℚ) (st : List ℚ) (now : ℚ) (rest : List ℚ) :
    rlRun m w st (now :: rest)
      = if (st.dropWhile (fun t => decide (t < now - w))).length < m
        then now :: rlRun m w
          ((st.dropWhile (fun t => decide (t < now - w))) ++ [now]) rest
        else rlRun m w (st.dropWhile (fun t => decide (t < now - w))) rest := by
  simp only [rlRun, rlStep]
  split
  · next h => simp [if_pos h]
  · next h => simp [if_neg h]

/-- Invariant induction for the sliding-window bound: processing further
attempts from a deque that holds exactly the previously granted calls still
inside the window keeps every rolling window at or under `m` granted
calls. -/
lemma rlRun_window_aux (m : Nat) (w : ℚ) (hw : 0 ≤ w) :
    ∀ (attempts : List ℚ) (G : List ℚ) (prev : ℚ),
      List.Chain' (· ≤ ·) (prev :: attempts) →
      (∀ g ∈ G, g ≤ prev) →
      G.Pairwise (· ≤ ·) →
      (∀ T, G.countP (inWindow w T) ≤ m) →
      ∀ T, (G ++ rlRun m w (G.filter (fun g => decide (prev - w ≤ g)))
        attempts).countP (inWindow w T) ≤ m
  | [], G, prev, _, _, _, hcnt => by
    intro T
    simpa [rlRun] using hcnt T
  | now :: rest, G, prev, hch, hmem, hpair, hcnt => by
    intro T
    have hpn : prev ≤ now := (List.chain'_cons.mp hch).1
    have hch' : List.Chain' (· ≤ ·) (now :: rest) :=
      (List.chain'_cons.mp hch).2
    have hst : (G.filter (fun g => decide (prev - w ≤ g))).dropWhile
        (fun t => decide (t < now - w))
        = G.filter (fun g => decide (now - w ≤ g)) := by
      rw [dropWhile_lt_eq_filter _ _
        (List.Pairwise.sublist (List.filter_sublist G) hpair)]
      rw [List.filter_filter]
      apply List.filter_congr
      intro g _
      by_cases h : now - w ≤ g
      · have h2 : prev - w ≤ g := by linarith
        simp [h, h2]
      · simp [h]
    rw [rlRun_cons, hst]
    by_cases hlen : (G.filter (fun g => decide (now - w ≤ g))).length < m
    · rw [if_pos hlen]
      have hfilt : G.filter (fun g => decide (now - w ≤ g)) ++ [now]
          = (G ++ [now]).filter (fun g => decide (now - w ≤ g)) := by
        rw [List.filter_append]
        congr 1
        have hp : now - w ≤ now := by linarith
        simp [List.filter_cons, hp]
        rw [if_pos hw]
      rw [hfilt, List.append_cons]
      apply rlRun_window_aux m w hw rest (G ++ [now]) now hch'
      · intro g hg
        rcases List.mem_append.mp hg with h | h
        · exact le_trans (hmem g h) hpn
        · simp at h
          subst h
          exact le_refl _
      · refine List.pairwise_append.mpr
          ⟨hpair, List.pairwise_singleton _ _, ?_⟩
        intro a ha b hb
        simp at hb
        subst hb
        exact le_trans (hmem a ha) hpn
      · intro T'
        rw [List.countP_append]
        by_cases hin : inWindow w T' now = true
        · have hwin : T' - w ≤ now ∧ now ≤ T' := by
            simpa [inWindow] using hin
          have h2 : G.countP (inWindow w T')
              ≤ (G.filter (fun g => decide (now - w ≤ g))).length := by
            rw [← List.countP_eq_length_filter]
            apply List.countP_mono_left
            intro x _ hpx
            have hx : T' - w ≤ x ∧ x ≤ T' := by
              simpa [inWindow] using hpx
            have hnx : now - w ≤ x := by
              have hw2 := hwin.2
              have hx1 := hx.1
              linarith
            simpa using hnx
          have h3 : ([now].countP (inWindow w T')) ≤ 1 := by
            simp only [List.countP_cons, List.countP_nil]
            split <;> simp
          omega
        · have h0 : [now].countP (inWindow w T') = 0 := by
            simp [List.countP_cons, hin]
          rw [h0]
          simpa using hcnt T'
    · rw [if_neg hlen]
      exact rlRun_window_aux m w hw rest G now hch'
        (fun g hg => le_trans (hmem g hg) hpn) hpair hcnt T

/-- C5: over any time-ordered sequence of call attempts, the sliding-window
rate limiter never grants more than `max_calls` calls inside any rolling
window of the configured length, and the Gateway dispatch of a call either
serves it from some provider in priority order or queues it with a wait
time — there is no dropped outcome. -/
theorem rateLimiter_window_bound (m : Nat) (w : ℚ) (attempts : List ℚ)
    (hw : 0 ≤ w) (hsorted : List.Chain' (· ≤ ·) attempts) :
    (∀ T : ℚ, (rlRun m w [] attempts).countP (inWindow w T) ≤ m) ∧
    (∀ (now : ℚ) (providers : List (List ℚ)),
      (∃ i, dispatch m w now providers = .served i) ∨
      (∃ t, dispatch m w now providers = .queued t)) := by
  constructor
  · intro T
    cases attempts with
    | nil => simp [rlRun]
    | cons now rest =>
      have h := rlRun_window_aux m w hw (now :: rest) [] now
        (List.chain'_cons.mpr ⟨le_refl now, hsorted⟩)
        (by simp) (by simp) (by simp) T
      simpa using h
  · intro now providers
    unfold dispatch
    cases hda : dispatchAux m w now 0 providers with
    | some i => exact Or.inl ⟨i, rfl⟩
    | none => exact Or.inr ⟨_, rfl⟩

/-- Witness for C5: with a budget of 2 calls per 10-unit window, four
attempts at times 0..3 grant at most 2 calls in the window ending at 3, and
a dispatch over one provider is served or queued. -/
theorem rateLimiter_window_bound_witness :
    (rlRun 2 10 [] [0, 1, 2, 3]).countP (inWindow 10 3) ≤ 2 ∧
    ((∃ i, dispatch 2 10 5 [[0, 1]] = .served i) ∨
      (∃ t, dispatch 2 10 5 [[0, 1]] = .queued t)) :=
  ⟨(rateLimiter_window_bound 2 10 [0, 1, 2, 3] (by norm_num)
      (by simp [List.chain'_cons]; norm_num)).1 3,
   (rateLimiter_window_bound 2 10 [0, 1, 2, 3] (by norm_num)
      (by simp [List.chain'_cons]; norm_num)).2 5 [[0, 1]]⟩

/-- Witness for C4: a registry holding the requested model in state
`training` yields `ModelUnavailable` and an equal-weight fallback. -/
theorem modelUnavailable_fallback_witness :
    generateSignals [("alstm", ModelLifecycle.training)] "alstm"
        (fun _ => (0, 0)) ["AAPL", "MSFT"]
      = .error SignalError.ModelUnavailable ∧
    (analyzePipeline [("alstm", ModelLifecycle.training)] "alstm"
        (fun _ => (0, 0)) ["AAPL", "MSFT"] [(0, 1)] (1/20)).status
      = .fallback :=
  ⟨(modelUnavailable_fallback [("alstm", ModelLifecycle.training)] "alstm"
      (fun _ => (0, 0)) ["AAPL", "MSFT"] [(0, 1)] (1/20) (by decide)).1,
   (modelUnavailable_fallback [("alstm", ModelLifecycle.training)] "alstm"
      (fun _ => (0, 0)) ["AAPL", "MSFT"] [(0, 1)] (1/20) (by decide)).2.2.1⟩

end AutoInvest
